import Mathlib

/-!
# ekr_fixperm: permission fixer for ExpressKey Remote mode switches

A shallow embedding of `ekr_fixperm.c` and proofs of its specified behaviour.

Conventions of the embedding.

* A C string is a `String`, one `Char` per C `char`; `strlen` is `String.length`.
* `mode_t`, `uid_t` and `gid_t` values are natural numbers, `int` and `long` values are
  integers; C division and remainder are `Int.tdiv` and `Int.tmod`.
* The file system is a function from path names to the record `stat` reads: two path
  names are two files. The calls whose outcome the program cannot determine (`glob`, whether `stat` succeeds, whether
  `chmod` succeeds and with which `errno`) are answered by an environment `Env`.
* Every call with an effect outside the process is recorded, in program order, as an
  `Event`; a function of the program returns the file system it leaves and its events.
* `mainloop` never returns; it is run for a given number of cycles.
-/

namespace EkrFixperm

/-! ## Constants and macros -/

/-- `HZ_LOWER`. -/
def HZ_LOWER : Int := 1

/-- `HZ_UPPER`. -/
def HZ_UPPER : Int := 1000

/-- `HZ_DEFAULT`. -/
def HZ_DEFAULT : Int := 5

/-- `HZ_TO_NSEC(hz)`, that is `1000000000l/(hz)`: a division that truncates toward zero
and has no value (`none`) when the divisor is zero. -/
def HZ_TO_NSEC (hz : Int) : Option Int :=
  if hz = 0 then none else some (Int.tdiv 1000000000 hz)

/-- `NSEC_TO_TIMESPEC(t)`, the initialiser `{ (t) / 1000000000l, (t) % 1000000000 }` of a
`struct timespec`: the pair `(tv_sec, tv_nsec)`. -/
def NSEC_TO_TIMESPEC (t : Int) : Int × Int :=
  (Int.tdiv t 1000000000, Int.tmod t 1000000000)

/-- `SYSFS_REMOTE_GLOB`. -/
def SYSFS_REMOTE_GLOB : String :=
  "/sys/module/*wacom/drivers/*/*/wacom_remote/*/remote_mode"

/-- `S_IRGRP` of `<sys/stat.h>`: read permission, group (octal 040). -/
def S_IRGRP : Nat := 0o40

/-- `S_IROTH` of `<sys/stat.h>`: read permission, others (octal 04). -/
def S_IROTH : Nat := 0o4

/-- The permission bits `chmod` can set (octal 07777): rwx for owner, group and
others, set-user-id, set-group-id and sticky. -/
def S_IALLUGO : Nat := 0o7777

/-! ## The world outside the process -/

/-- The fields of `struct stat` that matter here: mode (file type and permission
bits), owner and group. -/
structure stat where
  st_mode : Nat
  st_uid : Nat
  st_gid : Nat
deriving DecidableEq, Repr

/-- The file system: what `stat` would read for each path name. -/
abbrev FS := String → stat

/-- Answers of the operating system during one cycle.

* `glob pattern`: the path names `glob` stores in `gl_pathv` before the terminating
  null pointer; `gl_pathc` is their number. A failed `glob` stores none.
* `stat_ok path`: whether `stat(path, &st)` returns 0.
* `chmod_errno path`: `none` when `chmod(path, _)` returns 0, `some reason` when it
  fails, `reason` being the text `perror` prints for the `errno` it sets. -/
structure Env where
  glob : String → List String
  stat_ok : String → Bool
  chmod_errno : String → Option String

/-- Calls with an outside effect, in program order.

* `glob pattern`: a call of `glob`.
* `chmod path mode ok`: a call of `chmod(path, mode)` and whether it returned 0.
* `stdout s`: `s` written to the standard output (`printf`).
* `stderr s`: `s` written to the error stream (`fprintf(stderr, ...)`).
* `perror s reason`: the line `s`, colon, blank, `reason`, newline written to the
  error stream by `perror(s)`.
* `nanosleep tv_sec tv_nsec`: a call of `nanosleep` with that interval. -/
inductive Event where
  | glob (pattern : String)
  | chmod (path : String) (mode : Nat) (ok : Bool)
  | stdout (s : String)
  | stderr (s : String)
  | perror (s : String) (reason : String)
  | nanosleep (tv_sec : Int) (tv_nsec : Int)
deriving DecidableEq, Repr

/-- The text an event puts on the error stream. -/
def Event.err_text : Event → String
  | Event.stderr s => s
  | Event.perror s reason => s ++ ": " ++ reason ++ "\n"
  | _ => ""

/-- Effect of a successful `chmod(path, mode)` on the file (POSIX, and `chmod_common`
of Linux): the bits of `S_IALLUGO` are taken from `mode`, the file type bits above
them stay, owner and group stay. -/
def chmod_file (f : stat) (mode : Nat) : stat :=
  { f with st_mode := ((f.st_mode >>> 12) <<< 12) ||| (mode &&& S_IALLUGO) }

/-- `snprintf(buf, size, ...)` of a text `s`: at most `size - 1` characters of `s` are
stored (then the terminating null). -/
def snprintf (size : Nat) (s : String) : String :=
  ⟨s.data.take (size - 1)⟩

/-! ## The program -/

/-- The line `printf` writes after a successful `chmod`. -/
def msg_updated (path : String) : String :=
  "Permissions updated for '" ++ path ++ "'\n"

/-- The format `"Unable to update permission for '%s'"` filled with `path`. -/
def msg_unable (path : String) : String :=
  "Unable to update permission for '" ++ path ++ "'"

/-- Body of the `for` loop of `fixup_remotes` for one entry `path` of `gl_pathv`. The
`int len` is `strlen(path) + 100`; a path name is shorter than `PATH_MAX`, so the sum
is within `int`. -/
def fixup_path (env : Env) (path : String) (fs : FS) : FS × List Event :=
  let st := fs path
  if env.stat_ok path = true ∧ st.st_mode &&& S_IROTH = 0 then
    let mode := st.st_mode ||| S_IRGRP ||| S_IROTH
    match env.chmod_errno path with
    | some reason =>
      let len := path.length + 100
      let err := snprintf len (msg_unable path)
      (fs, [Event.chmod path mode false, Event.perror err reason])
    | none =>
      (Function.update fs path (chmod_file st mode),
        [Event.chmod path mode true, Event.stdout (msg_updated path)])
  else (fs, [])

/-- The `for` loop of `fixup_remotes` over the entries of `gl_pathv`, in order. -/
def fixup_loop (env : Env) : List String → FS → FS × List Event
  | [], fs => (fs, [])
  | path :: rest, fs =>
    let r := fixup_path env path fs
    let r2 := fixup_loop env rest r.1
    (r2.1, r.2 ++ r2.2)

/-- `fixup_remotes()`: one cycle of discovery and normalisation. -/
def fixup_remotes (env : Env) (fs : FS) : FS × List Event :=
  let results := env.glob SYSFS_REMOTE_GLOB
  let r := if results.length > 0 then fixup_loop env results fs else (fs, [])
  (r.1, Event.glob SYSFS_REMOTE_GLOB :: r.2)

/-- `mainloop(timer_ns)`, run for `cycles` rounds of its `while (1)`; round `n` is
answered by the environment `envs n`. -/
def mainloop (timer_ns : Int) (envs : Nat → Env) : Nat → FS → FS × List Event
  | 0, fs => (fs, [])
  | n + 1, fs =>
    let t := NSEC_TO_TIMESPEC timer_ns
    let r := mainloop timer_ns envs n fs
    let c := fixup_remotes (envs n) r.1
    (c.1, r.2 ++ c.2 ++ [Event.nanosleep t.1 t.2])

/-- `help(name)`. -/
def help (name : String) : List Event :=
  [ Event.stderr ("Usage: " ++ name ++ " [hz]\n"),
    Event.stderr "Update ExpressKey Remote mode switch permissions.\n",
    Event.stderr "\n",
    Event.stderr ("  hz            Polling rate for new devices in Hz (default "
      ++ toString HZ_DEFAULT ++ ")\n"),
    Event.stderr "\n" ]

/-- The `geteuid() != 0` check of `main`: a warning on the error stream when the
effective user is not root. -/
def root_warning (euid : Nat) : List Event :=
  if euid ≠ 0 then
    [Event.stderr "Program not running as root. May not be able to fix permissions!\n"]
  else []

/-- How far `main` has come. -/
inductive Status where
  | exited (code : Int)
  | in_mainloop (timer_ns : Int)
  | undefined
deriving DecidableEq, Repr

/-- What a run of the program leaves: file system, events, status. -/
structure Run where
  fs : FS
  trace : List Event
  status : Status

/-- `main(argc, argv)` with `argc = argv.length`, observed until `mainloop` has done
`cycles` rounds. `atoi` is the C library function, `euid` the value of `geteuid()`.
`argv[0]` is printed as `(null)` when the vector is empty. -/
def main (atoi : String → Int) (argv : List String) (euid : Nat)
    (envs : Nat → Env) (cycles : Nat) (fs : FS) : Run :=
  let argc := argv.length
  let argv0 := argv.headD "(null)"
  let parsed : Except (List Event) Int :=
    if argc = 1 then
      Except.ok HZ_DEFAULT
    else if argc = 2 then
      let hz := atoi (argv.getD 1 "")
      if hz < HZ_LOWER ∨ hz > HZ_UPPER then
        Except.error
          ([ Event.stderr ("Invalid hz value. Must be between " ++ toString HZ_LOWER
               ++ " and " ++ toString HZ_UPPER ++ ".\n"),
             Event.stderr "\n" ] ++ help argv0)
      else Except.ok hz
    else Except.error (help argv0)
  match parsed with
  | Except.error out => ⟨fs, out, Status.exited 1⟩
  | Except.ok hz =>
    let warn := root_warning euid
    match HZ_TO_NSEC hz with
    | none => ⟨fs, warn, Status.undefined⟩
    | some timer_ns =>
      let r := mainloop timer_ns envs cycles fs
      ⟨r.1, warn ++ r.2, Status.in_mainloop timer_ns⟩

/-! ## An `atoi` to run `main` with

`main` takes the library function `atoi` as an argument and the theorems hold for every
such function. The one below follows the GNU C library on a 64-bit system and serves
to evaluate `main` on concrete command lines. -/

/-- `isspace` in the C locale: blank, and the control characters 9 to 13. -/
def isspace (c : Char) : Bool :=
  c.toNat = 32 ∨ (9 ≤ c.toNat ∧ c.toNat ≤ 13)

/-- Value of the leading decimal digits of a text, continuing from `acc`. -/
def leading_digits : List Char → Nat → Nat
  | [], acc => acc
  | c :: cs, acc =>
    if 48 ≤ c.toNat ∧ c.toNat ≤ 57 then leading_digits cs (acc * 10 + (c.toNat - 48))
    else acc

/-- `atoi` of the GNU C library, `(int) strtol(nptr, NULL, 10)`: white space is
skipped, one sign is read, then decimal digits; a value outside `long` is replaced
by the nearest `long`; the conversion to `int` keeps the low 32 bits. Text with no
leading number gives 0. -/
def glibc_atoi (s : String) : Int :=
  let body := s.data.dropWhile isspace
  let negative := body.head?.map Char.toNat = some 45
  let signed := body.head?.map Char.toNat = some 45 ∨ body.head?.map Char.toNat = some 43
  let n : Int := leading_digits (if signed then body.tail else body) 0
  let v : Int := if negative then max (-n) (-9223372036854775808) else min n 9223372036854775807
  (v + 2147483648) % 4294967296 - 2147483648

/-! ## Concrete scenario: three remotes -/

/-- Three mode switch files: world-readable, restricted and changeable, restricted and
not changeable. -/
def remote_a : String := "/sys/module/wacom/drivers/hid:wacom/0003:056A:0331.0001/wacom_remote/1/remote_mode"

/-- Second remote. -/
def remote_b : String := "/sys/module/wacom/drivers/hid:wacom/0003:056A:0331.0001/wacom_remote/2/remote_mode"

/-- Third remote. -/
def remote_c : String := "/sys/module/wacom/drivers/hid:wacom/0003:056A:0331.0001/wacom_remote/3/remote_mode"

/-- Modes of the scenario: regular files, 0644, 0700 and 0600, owned by root. -/
def fs3 : FS := fun p =>
  if p = remote_a then ⟨0o100644, 0, 0⟩
  else if p = remote_b then ⟨0o100700, 0, 0⟩
  else ⟨0o100600, 0, 0⟩

/-- Environment of the scenario: `glob` finds the three files, `stat` succeeds, `chmod`
fails on the third one. -/
def env3 : Env where
  glob := fun _ => [remote_a, remote_b, remote_c]
  stat_ok := fun _ => true
  chmod_errno := fun p => if p = remote_c then some "Operation not permitted" else none

/-- The scenario with `glob` listing the remotes in the opposite order. -/
def env3_rev : Env where
  glob := fun _ => [remote_c, remote_b, remote_a]
  stat_ok := fun _ => true
  chmod_errno := fun p => if p = remote_c then some "Operation not permitted" else none

/-- A file system in which every file has mode 0604: other-read set, group-read
clear. -/
def fs_0604 : FS := fun _ => ⟨0o100604, 0, 0⟩

/-- Environment with one remote, on which `stat` and `chmod` succeed. -/
def env_one : Env where
  glob := fun _ => [remote_a]
  stat_ok := fun _ => true
  chmod_errno := fun _ => none

/-! ## Observations on a trace, in the words of the specification -/

/-- The event is a call of `chmod` on `p`. -/
def Event.chmod_of (p : String) : Event → Bool
  | Event.chmod q _ _ => decide (q = p)
  | _ => false

/-- The event is the confirmation line naming `p`. -/
def Event.confirmation_for (p : String) : Event → Bool
  | Event.stdout s => decide (s = "Permissions updated for '" ++ p ++ "'\n")
  | _ => false

/-- The event is an error line naming `p`, whatever the reason after it. -/
def Event.error_line_for (p : String) : Event → Bool
  | Event.perror s _ => decide (s = "Unable to update permission for '" ++ p ++ "'")
  | _ => false

/-- The event writes to the standard output or to the error stream. -/
def Event.is_message : Event → Bool
  | Event.stdout _ => true
  | Event.stderr _ => true
  | Event.perror _ _ => true
  | _ => false

/-- The event is a call of `chmod`. -/
def Event.is_chmod : Event → Bool
  | Event.chmod _ _ _ => true
  | _ => false

/-- The event is a call of `nanosleep`. -/
def Event.is_nanosleep : Event → Bool
  | Event.nanosleep _ _ => true
  | _ => false

/-- The message the specification expects for a discovered path, from the file system
as it is when the cycle begins: none when `stat` fails or other-read is set, the
confirmation line when `chmod` succeeds, the error line with the reason when it fails. -/
def expected_message (env : Env) (fs : FS) (p : String) : Option Event :=
  if env.stat_ok p = true ∧ (fs p).st_mode &&& S_IROTH = 0 then
    match env.chmod_errno p with
    | none => some (Event.stdout ("Permissions updated for '" ++ p ++ "'\n"))
    | some reason => some (Event.perror ("Unable to update permission for '" ++ p ++ "'") reason)
  else none

/-- The `chmod` call the specification expects for a discovered path: none when `stat`
fails or other-read is set, else one call that adds group-read and other-read to the
mode the file has when the cycle begins. -/
def expected_chmod (env : Env) (fs : FS) (p : String) : Option Event :=
  if env.stat_ok p = true ∧ (fs p).st_mode &&& S_IROTH = 0 then
    some (Event.chmod p ((fs p).st_mode ||| S_IRGRP ||| S_IROTH) (env.chmod_errno p).isNone)
  else none

/-- The mode the specification expects a file to have after a cycle. -/
def expected_mode (env : Env) (fs : FS) (p : String) : Nat :=
  if p ∈ env.glob SYSFS_REMOTE_GLOB ∧ env.stat_ok p = true ∧ (fs p).st_mode &&& S_IROTH = 0
      ∧ env.chmod_errno p = none
  then (fs p).st_mode ||| S_IRGRP ||| S_IROTH else (fs p).st_mode

/-! ## Bit arithmetic of modes -/

theorem testBit_fixed_mode (m i : Nat) :
    (m ||| S_IRGRP ||| S_IROTH).testBit i = (m.testBit i || decide (i = 5) || decide (i = 2)) := by
  have h5 : S_IRGRP = 2 ^ 5 := by decide
  have h2 : S_IROTH = 2 ^ 2 := by decide
  rw [Nat.testBit_or, Nat.testBit_or, h5, h2, Nat.testBit_two_pow, Nat.testBit_two_pow]
  simp only [eq_comm]

theorem and_S_IROTH_eq_zero_iff (m : Nat) : m &&& S_IROTH = 0 ↔ m.testBit 2 = false := by
  have h2 : S_IROTH = 2 ^ 2 := by decide
  constructor
  · intro h
    have := congrArg (fun x => x.testBit 2) h
    rw [h2] at this
    simpa only [Nat.testBit_and, Nat.testBit_two_pow_self, Nat.zero_testBit,
      Bool.and_true] using this
  · intro h
    apply Nat.eq_of_testBit_eq
    intro i
    rw [Nat.testBit_and, h2, Nat.testBit_two_pow]
    by_cases hi : 2 = i
    · subst hi; simp [h]
    · simp [hi]

theorem and_S_IRGRP_eq_zero_iff (m : Nat) : m &&& S_IRGRP = 0 ↔ m.testBit 5 = false := by
  have h5 : S_IRGRP = 2 ^ 5 := by decide
  constructor
  · intro h
    have := congrArg (fun x => x.testBit 5) h
    rw [h5] at this
    simpa only [Nat.testBit_and, Nat.testBit_two_pow_self, Nat.zero_testBit,
      Bool.and_true] using this
  · intro h
    apply Nat.eq_of_testBit_eq
    intro i
    rw [Nat.testBit_and, h5, Nat.testBit_two_pow]
    by_cases hi : 5 = i
    · subst hi; simp [h]
    · simp [hi]

theorem fixed_mode_has_S_IROTH (m : Nat) : (m ||| S_IRGRP ||| S_IROTH) &&& S_IROTH ≠ 0 := by
  rw [Ne, and_S_IROTH_eq_zero_iff, testBit_fixed_mode]
  simp

theorem fixed_mode_has_S_IRGRP (m : Nat) : (m ||| S_IRGRP ||| S_IROTH) &&& S_IRGRP ≠ 0 := by
  rw [Ne, and_S_IRGRP_eq_zero_iff, testBit_fixed_mode]
  simp

/-- A successful `chmod(path, st_mode | S_IRGRP | S_IROTH)` leaves the file with exactly
the mode passed, file type bits included. -/
theorem chmod_file_fixed_mode (f : stat) :
    (chmod_file f (f.st_mode ||| S_IRGRP ||| S_IROTH)).st_mode
      = f.st_mode ||| S_IRGRP ||| S_IROTH := by
  have hall : S_IALLUGO = 2 ^ 12 - 1 := by decide
  show ((f.st_mode >>> 12) <<< 12) ||| ((f.st_mode ||| S_IRGRP ||| S_IROTH) &&& S_IALLUGO) = _
  apply Nat.eq_of_testBit_eq
  intro i
  rw [Nat.testBit_or, Nat.testBit_and, hall, Nat.testBit_two_pow_sub_one,
    Nat.testBit_shiftLeft, Nat.testBit_shiftRight, testBit_fixed_mode]
  by_cases hi : i < 12
  · have h1 : ¬ (i ≥ 12) := by omega
    simp [hi, h1]
  · have h1 : i ≥ 12 := by omega
    have h2 : 12 + (i - 12) = i := by omega
    have h3 : ¬ i = 5 := by omega
    have h4 : ¬ i = 2 := by omega
    simp [hi, h1, h2, h3, h4]

/-! ## Texts -/

theorem msg_updated_injective {p q : String} (h : msg_updated p = msg_updated q) : p = q := by
  unfold msg_updated at h
  have hd := congrArg String.data h
  simp only [String.data_append] at hd
  exact String.ext (List.append_cancel_left (List.append_cancel_right hd))

theorem msg_unable_injective {p q : String} (h : msg_unable p = msg_unable q) : p = q := by
  unfold msg_unable at h
  have hd := congrArg String.data h
  simp only [String.data_append] at hd
  exact String.ext (List.append_cancel_left (List.append_cancel_right hd))

theorem msg_unable_length (p : String) : (msg_unable p).length = p.length + 34 := by
  unfold msg_unable
  rw [String.length_append, String.length_append]
  have h1 : "Unable to update permission for '".length = 33 := by decide
  have h2 : "'".length = 1 := by decide
  omega

/-- The buffer `err[strlen(path) + 100]` holds the whole text: nothing is cut off. -/
theorem snprintf_msg_unable (p : String) :
    snprintf (p.length + 100) (msg_unable p) = msg_unable p := by
  unfold snprintf
  apply String.ext
  show (msg_unable p).data.take (p.length + 100 - 1) = (msg_unable p).data
  apply List.take_of_length_le
  have := msg_unable_length p
  have h : (msg_unable p).data.length = (msg_unable p).length := rfl
  omega

/-! ## One entry of the path vector -/

theorem fixup_path_skip {env : Env} {p : String} {fs : FS}
    (h : ¬ (env.stat_ok p = true ∧ (fs p).st_mode &&& S_IROTH = 0)) :
    fixup_path env p fs = (fs, []) := by
  unfold fixup_path
  simp only [if_neg h]

theorem fixup_path_ok {env : Env} {p : String} {fs : FS}
    (h1 : env.stat_ok p = true) (h2 : (fs p).st_mode &&& S_IROTH = 0)
    (h3 : env.chmod_errno p = none) :
    fixup_path env p fs =
      (Function.update fs p (chmod_file (fs p) ((fs p).st_mode ||| S_IRGRP ||| S_IROTH)),
        [Event.chmod p ((fs p).st_mode ||| S_IRGRP ||| S_IROTH) true,
         Event.stdout (msg_updated p)]) := by
  unfold fixup_path
  simp only [if_pos (And.intro h1 h2), h3]

theorem fixup_path_fail {env : Env} {p : String} {fs : FS} {reason : String}
    (h1 : env.stat_ok p = true) (h2 : (fs p).st_mode &&& S_IROTH = 0)
    (h3 : env.chmod_errno p = some reason) :
    fixup_path env p fs =
      (fs, [Event.chmod p ((fs p).st_mode ||| S_IRGRP ||| S_IROTH) false,
            Event.perror (msg_unable p) reason]) := by
  unfold fixup_path
  simp only [if_pos (And.intro h1 h2), h3, snprintf_msg_unable]

/-- The three ways an entry is handled. -/
theorem fixup_path_cases (env : Env) (p : String) (fs : FS) :
    (¬ (env.stat_ok p = true ∧ (fs p).st_mode &&& S_IROTH = 0) ∧ fixup_path env p fs = (fs, []))
    ∨ (env.stat_ok p = true ∧ (fs p).st_mode &&& S_IROTH = 0 ∧ env.chmod_errno p = none ∧
        fixup_path env p fs =
          (Function.update fs p (chmod_file (fs p) ((fs p).st_mode ||| S_IRGRP ||| S_IROTH)),
            [Event.chmod p ((fs p).st_mode ||| S_IRGRP ||| S_IROTH) true,
             Event.stdout (msg_updated p)]))
    ∨ (env.stat_ok p = true ∧ (fs p).st_mode &&& S_IROTH = 0 ∧
        ∃ reason, env.chmod_errno p = some reason ∧
          fixup_path env p fs =
            (fs, [Event.chmod p ((fs p).st_mode ||| S_IRGRP ||| S_IROTH) false,
                  Event.perror (msg_unable p) reason])) := by
  by_cases h : env.stat_ok p = true ∧ (fs p).st_mode &&& S_IROTH = 0
  · cases hc : env.chmod_errno p with
    | none => exact Or.inr (Or.inl ⟨h.1, h.2, rfl, fixup_path_ok h.1 h.2 hc⟩)
    | some reason => exact Or.inr (Or.inr ⟨h.1, h.2, reason, rfl, fixup_path_fail h.1 h.2 hc⟩)
  · exact Or.inl ⟨h, fixup_path_skip h⟩

/-- Handling one entry touches no other file. -/
theorem fixup_path_other (env : Env) {p q : String} (fs : FS) (hq : q ≠ p) :
    (fixup_path env p fs).1 q = fs q := by
  rcases fixup_path_cases env p fs with h | h | h
  · rw [h.2]
  · rw [h.2.2.2]; exact Function.update_noteq hq _ _
  · obtain ⟨_, _, reason, _, h4⟩ := h
    rw [h4]

/-- The events of handling an entry depend on that file only. -/
theorem fixup_path_trace_congr (env : Env) {q : String} {fs fs2 : FS} (h : fs2 q = fs q) :
    (fixup_path env q fs2).2 = (fixup_path env q fs).2 := by
  unfold fixup_path
  simp only [h]
  split
  · cases env.chmod_errno q <;> rfl
  · rfl

/-- After an entry is handled it no longer needs a successful `chmod`. -/
theorem fixup_path_settled (env : Env) (p : String) (fs : FS) :
    ¬ (env.stat_ok p = true ∧ ((fixup_path env p fs).1 p).st_mode &&& S_IROTH = 0
        ∧ env.chmod_errno p = none) := by
  rcases fixup_path_cases env p fs with h | h | h
  · rw [h.2]; intro hc; exact h.1 ⟨hc.1, hc.2.1⟩
  · rw [h.2.2.2]
    intro hc
    have := hc.2.1
    simp only [Function.update_same, chmod_file_fixed_mode] at this
    exact fixed_mode_has_S_IROTH _ this
  · obtain ⟨_, _, reason, h3, h4⟩ := h
    rw [h4]; intro hc
    rw [h3] at hc
    exact Option.noConfusion hc.2.2

/-! ## The loop over the path vector -/

theorem fixup_loop_cons (env : Env) (p : String) (rest : List String) (fs : FS) :
    fixup_loop env (p :: rest) fs =
      ((fixup_loop env rest (fixup_path env p fs).1).1,
        (fixup_path env p fs).2 ++ (fixup_loop env rest (fixup_path env p fs).1).2) := rfl

/-- The file system a loop leaves, file by file: a file is changed exactly when it is
in the vector, `stat` succeeds, other-read is clear and `chmod` succeeds, and then it is
changed by that one `chmod`. -/
theorem fixup_loop_fs (env : Env) (ps : List String) (fs : FS) (q : String) :
    (fixup_loop env ps fs).1 q =
      if q ∈ ps ∧ env.stat_ok q = true ∧ (fs q).st_mode &&& S_IROTH = 0
          ∧ env.chmod_errno q = none
      then chmod_file (fs q) ((fs q).st_mode ||| S_IRGRP ||| S_IROTH) else fs q := by
  induction ps generalizing fs with
  | nil => simp [fixup_loop]
  | cons p rest ih =>
    rw [fixup_loop_cons]
    show (fixup_loop env rest (fixup_path env p fs).1).1 q = _
    rw [ih]
    by_cases hqp : q = p
    · subst hqp
      have hs := fixup_path_settled env q fs
      rw [if_neg (fun hc => hs hc.2)]
      rcases fixup_path_cases env q fs with h | h | h
      · rw [h.2, if_neg (fun hc => h.1 ⟨hc.2.1, hc.2.2.1⟩)]
      · rw [h.2.2.2, if_pos ⟨List.mem_cons_self _ _, h.1, h.2.1, h.2.2.1⟩]
        simp only [Function.update_same]
      · obtain ⟨_, _, reason, h3, h4⟩ := h
        rw [h4, if_neg]
        intro hc
        rw [h3] at hc
        exact Option.noConfusion hc.2.2.2
    · rw [fixup_path_other env fs hqp]
      simp only [List.mem_cons, hqp, false_or]

/-- Every event of a loop belongs to an entry that needed the fix when the loop began,
and is one of the events of handling that entry in the initial file system. -/
theorem mem_fixup_loop_trace {env : Env} {ps : List String} {fs : FS} {e : Event}
    (h : e ∈ (fixup_loop env ps fs).2) :
    ∃ q, q ∈ ps ∧ env.stat_ok q = true ∧ (fs q).st_mode &&& S_IROTH = 0
      ∧ e ∈ (fixup_path env q fs).2 := by
  induction ps generalizing fs with
  | nil => simp [fixup_loop] at h
  | cons p rest ih =>
    rw [fixup_loop_cons] at h
    rcases List.mem_append.1 h with h1 | h1
    · rcases fixup_path_cases env p fs with hc | hc | hc
      · rw [hc.2] at h1; simp at h1
      · exact ⟨p, List.mem_cons_self _ _, hc.1, hc.2.1, h1⟩
      · exact ⟨p, List.mem_cons_self _ _, hc.1, hc.2.1, h1⟩
    · obtain ⟨q, hq, hs, hm, he⟩ := ih h1
      by_cases hqp : q = p
      · subst hqp
        rcases fixup_path_cases env q fs with hc | hc | hc
        · rw [hc.2] at hm he
          exact ⟨q, List.mem_cons_self _ _, hs, hm, he⟩
        · rw [hc.2.2.2] at hm
          simp only [Function.update_same, chmod_file_fixed_mode] at hm
          exact absurd hm (fixed_mode_has_S_IROTH _)
        · obtain ⟨_, _, reason, h3, h4⟩ := hc
          rw [h4] at hm he
          exact ⟨q, List.mem_cons_self _ _, hs, hm, he⟩
      · have hfs := fixup_path_other env fs hqp
        rw [hfs] at hm
        refine ⟨q, List.mem_cons_of_mem _ hq, hs, hm, ?_⟩
        rw [← fixup_path_trace_congr env hfs]; exact he

theorem fixup_loop_append (env : Env) (xs ys : List String) (fs : FS) :
    fixup_loop env (xs ++ ys) fs =
      ((fixup_loop env ys (fixup_loop env xs fs).1).1,
        (fixup_loop env xs fs).2 ++ (fixup_loop env ys (fixup_loop env xs fs).1).2) := by
  induction xs generalizing fs with
  | nil => simp [fixup_loop]
  | cons p rest ih =>
    rw [List.cons_append, fixup_loop_cons, fixup_loop_cons, ih]
    simp only [List.append_assoc]

/-- The guard `gl_pathc > 0` changes nothing: an empty vector gives an empty loop. -/
theorem fixup_remotes_eq (env : Env) (fs : FS) :
    fixup_remotes env fs =
      ((fixup_loop env (env.glob SYSFS_REMOTE_GLOB) fs).1,
        Event.glob SYSFS_REMOTE_GLOB :: (fixup_loop env (env.glob SYSFS_REMOTE_GLOB) fs).2) := by
  unfold fixup_remotes
  cases h : env.glob SYSFS_REMOTE_GLOB with
  | nil => simp [fixup_loop]
  | cons p rest => simp

/-! ## Events and the paths they are about -/

/-- An event of handling the entry `q` that is a `chmod` of `p`, or a line naming `p`,
has `p = q`. -/
theorem about_of_mem_fixup_path {env : Env} {fs : FS} {p q : String} {e : Event}
    (he : e ∈ (fixup_path env q fs).2)
    (h : Event.chmod_of p e = true ∨ Event.confirmation_for p e = true
      ∨ Event.error_line_for p e = true) : q = p := by
  rcases fixup_path_cases env q fs with hc | hc | hc
  · rw [hc.2] at he; simp at he
  · rw [hc.2.2.2] at he
    simp only [List.mem_cons, List.mem_singleton, List.not_mem_nil, or_false] at he
    rcases he with rfl | rfl
    · simpa [Event.chmod_of, Event.confirmation_for, Event.error_line_for] using h
    · have h2 : msg_updated q = msg_updated p := by
        simpa [Event.chmod_of, Event.confirmation_for, Event.error_line_for, msg_updated]
          using h
      exact msg_updated_injective h2
  · obtain ⟨_, _, reason, _, h4⟩ := hc
    rw [h4] at he
    simp only [List.mem_cons, List.mem_singleton, List.not_mem_nil, or_false] at he
    rcases he with rfl | rfl
    · simpa [Event.chmod_of, Event.confirmation_for, Event.error_line_for] using h
    · have h2 : msg_unable q = msg_unable p := by
        simpa [Event.chmod_of, Event.confirmation_for, Event.error_line_for, msg_unable]
          using h
      exact msg_unable_injective h2

/-- A loop has no event about a path that is not in the vector, or whose `stat` fails,
or whose other-read bit is set when the loop begins. -/
theorem no_event_about {env : Env} {ps : List String} {fs : FS} {p : String}
    (h : ¬ (p ∈ ps ∧ env.stat_ok p = true ∧ (fs p).st_mode &&& S_IROTH = 0))
    {e : Event} (he : e ∈ (fixup_loop env ps fs).2) :
    Event.chmod_of p e = false ∧ Event.confirmation_for p e = false
      ∧ Event.error_line_for p e = false := by
  obtain ⟨q, hq, hs, hm, hmem⟩ := mem_fixup_loop_trace he
  by_contra hcon
  have habout : Event.chmod_of p e = true ∨ Event.confirmation_for p e = true
      ∨ Event.error_line_for p e = true := by
    by_contra hn
    simp only [not_or, Bool.not_eq_true] at hn
    exact hcon hn
  have := about_of_mem_fixup_path hmem habout
  subst this
  exact h ⟨hq, hs, hm⟩

/-- Events about `p` in a loop over a vector with `p` in it, when `p` needs the fix and
`chmod` succeeds: those of the one successful visit. Later visits of `p` find
other-read set. -/
theorem filter_loop_of_chmod_ok {env : Env} {p : String} (P : Event → Bool)
    (hP : ∀ e, P e = true → Event.chmod_of p e = true ∨ Event.confirmation_for p e = true
      ∨ Event.error_line_for p e = true)
    (hc : env.chmod_errno p = none) (hs : env.stat_ok p = true) :
    ∀ (ps : List String) (fs : FS), p ∈ ps → (fs p).st_mode &&& S_IROTH = 0 →
      (fixup_loop env ps fs).2.filter P =
        [Event.chmod p ((fs p).st_mode ||| S_IRGRP ||| S_IROTH) true,
         Event.stdout (msg_updated p)].filter P := by
  intro ps
  induction ps with
  | nil => intro fs hmem; simp at hmem
  | cons q rest ih =>
    intro fs hmem hm
    rw [fixup_loop_cons]
    show List.filter P ((fixup_path env q fs).2 ++ (fixup_loop env rest (fixup_path env q fs).1).2) = _
    rw [List.filter_append]
    by_cases hqp : q = p
    · subst hqp
      have hrest : List.filter P (fixup_loop env rest (fixup_path env q fs).1).2 = [] := by
        rw [List.filter_eq_nil_iff]
        intro e he hPe
        have hset := fixup_path_settled env q fs
        have hno := no_event_about (p := q) (fun h => hset ⟨h.2.1, h.2.2, hc⟩) he
        rcases hP e hPe with h | h | h
        · rw [hno.1] at h; exact Bool.noConfusion h
        · rw [hno.2.1] at h; exact Bool.noConfusion h
        · rw [hno.2.2] at h; exact Bool.noConfusion h
      rw [hrest, List.append_nil, fixup_path_ok hs hm hc]
    · have hfirst : List.filter P (fixup_path env q fs).2 = [] := by
        rw [List.filter_eq_nil_iff]
        intro e he hPe
        exact hqp (about_of_mem_fixup_path he (hP e hPe))
      have hp : p ∈ rest := by
        rcases List.mem_cons.1 hmem with h | h
        · exact absurd h.symm hqp
        · exact h
      have hfs : (fixup_path env q fs).1 p = fs p := fixup_path_other env fs (Ne.symm hqp)
      rw [hfirst, List.nil_append, ih (fixup_path env q fs).1 hp (by rw [hfs]; exact hm), hfs]

/-- Events about `p` in a loop over a vector that has `p` once, when `p` needs the fix
and `chmod` fails: those of the one failed visit. -/
theorem filter_loop_of_chmod_fail {env : Env} {p : String} {reason : String}
    (P : Event → Bool)
    (hP : ∀ e, P e = true → Event.chmod_of p e = true ∨ Event.confirmation_for p e = true
      ∨ Event.error_line_for p e = true)
    (hc : env.chmod_errno p = some reason) (hs : env.stat_ok p = true)
    (front back : List String) (fs : FS) (hfront : p ∉ front) (hback : p ∉ back)
    (hm : (fs p).st_mode &&& S_IROTH = 0) :
    (fixup_loop env (front ++ p :: back) fs).2.filter P =
      [Event.chmod p ((fs p).st_mode ||| S_IRGRP ||| S_IROTH) false,
       Event.perror (msg_unable p) reason].filter P := by
  have hnil : ∀ (ps : List String) (fs2 : FS), p ∉ ps →
      List.filter P (fixup_loop env ps fs2).2 = [] := by
    intro ps fs2 hps
    rw [List.filter_eq_nil_iff]
    intro e he hPe
    have hno := no_event_about (p := p) (fun h => hps h.1) he
    rcases hP e hPe with h | h | h
    · rw [hno.1] at h; exact Bool.noConfusion h
    · rw [hno.2.1] at h; exact Bool.noConfusion h
    · rw [hno.2.2] at h; exact Bool.noConfusion h
  have hfs : (fixup_loop env front fs).1 p = fs p := by
    rw [fixup_loop_fs, if_neg (fun h => hfront h.1)]
  rw [fixup_loop_append, fixup_loop_cons]
  show List.filter P ((fixup_loop env front fs).2 ++
    ((fixup_path env p (fixup_loop env front fs).1).2 ++
      (fixup_loop env back (fixup_path env p (fixup_loop env front fs).1).1).2)) = _
  rw [List.filter_append, List.filter_append, hnil front fs hfront, hnil back _ hback,
    fixup_path_fail hs (by rw [hfs]; exact hm) hc, hfs]
  simp only [List.nil_append, List.append_nil]

/-! ## The claims on one cycle -/

/-- C2. For a discovered path whose `stat` succeeds with a mode `m` lacking other-read
and whose `chmod` succeeds, one run of `fixup_remotes` leaves the file with mode exactly
`m | S_IRGRP | S_IROTH`: group-read and other-read are set, every other bit of the
mode is as in `m`, owner and group are as before, and the trace has exactly one
confirmation line naming the path and no error line naming it. -/
theorem fixup_remotes_widens (env : Env) (fs : FS) (p : String)
    (hmem : p ∈ env.glob SYSFS_REMOTE_GLOB) (hstat : env.stat_ok p = true)
    (hmode : (fs p).st_mode &&& S_IROTH = 0) (hchmod : env.chmod_errno p = none) :
    ((fixup_remotes env fs).1 p).st_mode = (fs p).st_mode ||| S_IRGRP ||| S_IROTH
    ∧ ((fixup_remotes env fs).1 p).st_mode &&& S_IRGRP ≠ 0
    ∧ ((fixup_remotes env fs).1 p).st_mode &&& S_IROTH ≠ 0
    ∧ (∀ i, i ≠ 5 → i ≠ 2 →
        ((fixup_remotes env fs).1 p).st_mode.testBit i = (fs p).st_mode.testBit i)
    ∧ ((fixup_remotes env fs).1 p).st_uid = (fs p).st_uid
    ∧ ((fixup_remotes env fs).1 p).st_gid = (fs p).st_gid
    ∧ (fixup_remotes env fs).2.filter (Event.confirmation_for p)
        = [Event.stdout ("Permissions updated for '" ++ p ++ "'\n")]
    ∧ (fixup_remotes env fs).2.filter (Event.error_line_for p) = [] := by
  have hfs : (fixup_remotes env fs).1 p
      = chmod_file (fs p) ((fs p).st_mode ||| S_IRGRP ||| S_IROTH) := by
    rw [fixup_remotes_eq]
    show (fixup_loop env (env.glob SYSFS_REMOTE_GLOB) fs).1 p = _
    rw [fixup_loop_fs, if_pos ⟨hmem, hstat, hmode, hchmod⟩]
  have hmode2 : ((fixup_remotes env fs).1 p).st_mode = (fs p).st_mode ||| S_IRGRP ||| S_IROTH := by
    rw [hfs, chmod_file_fixed_mode]
  refine ⟨hmode2, ?_, ?_, ?_, ?_, ?_, ?_, ?_⟩
  · rw [hmode2]; exact fixed_mode_has_S_IRGRP _
  · rw [hmode2]; exact fixed_mode_has_S_IROTH _
  · intro i h5 h2
    rw [hmode2, testBit_fixed_mode]
    simp [h5, h2]
  · rw [hfs]; rfl
  · rw [hfs]; rfl
  · rw [fixup_remotes_eq]
    show List.filter (Event.confirmation_for p)
      (Event.glob SYSFS_REMOTE_GLOB :: (fixup_loop env (env.glob SYSFS_REMOTE_GLOB) fs).2) = _
    rw [List.filter_cons_of_neg (by simp [Event.confirmation_for]),
      filter_loop_of_chmod_ok (Event.confirmation_for p) (fun e h => Or.inr (Or.inl h))
        hchmod hstat _ fs hmem hmode]
    simp [Event.confirmation_for, msg_updated]
  · rw [fixup_remotes_eq]
    show List.filter (Event.error_line_for p)
      (Event.glob SYSFS_REMOTE_GLOB :: (fixup_loop env (env.glob SYSFS_REMOTE_GLOB) fs).2) = _
    rw [List.filter_cons_of_neg (by simp [Event.error_line_for]),
      filter_loop_of_chmod_ok (Event.error_line_for p) (fun e h => Or.inr (Or.inr h))
        hchmod hstat _ fs hmem hmode]
    simp [Event.error_line_for]

/-- Witness of C2: the second remote of the scenario, mode 0700, becomes 0744 (the
owner-execute bit stays). -/
theorem fixup_remotes_widens_witness :
    remote_b ∈ env3.glob SYSFS_REMOTE_GLOB ∧ env3.stat_ok remote_b = true
    ∧ (fs3 remote_b).st_mode &&& S_IROTH = 0 ∧ env3.chmod_errno remote_b = none
    ∧ ((fixup_remotes env3 fs3).1 remote_b).st_mode = 0o100744 :=
  ⟨by decide, by decide, by decide, by decide,
    (fixup_remotes_widens env3 fs3 remote_b (by decide) (by decide) (by decide)
      (by decide)).1.trans (by decide)⟩

/-- The mode of every file after a cycle is the expected one. -/
theorem fixup_remotes_mode (env : Env) (fs : FS) (p : String) :
    ((fixup_remotes env fs).1 p).st_mode = expected_mode env fs p := by
  rw [fixup_remotes_eq]
  show ((fixup_loop env (env.glob SYSFS_REMOTE_GLOB) fs).1 p).st_mode = _
  rw [fixup_loop_fs]
  unfold expected_mode
  split
  · exact chmod_file_fixed_mode _
  · rfl

/-- Owner and group of every file after a cycle are as before. -/
theorem fixup_remotes_owner (env : Env) (fs : FS) (p : String) :
    ((fixup_remotes env fs).1 p).st_uid = (fs p).st_uid
    ∧ ((fixup_remotes env fs).1 p).st_gid = (fs p).st_gid := by
  rw [fixup_remotes_eq]
  show ((fixup_loop env (env.glob SYSFS_REMOTE_GLOB) fs).1 p).st_uid = _
    ∧ ((fixup_loop env (env.glob SYSFS_REMOTE_GLOB) fs).1 p).st_gid = _
  rw [fixup_loop_fs]
  split
  · exact ⟨rfl, rfl⟩
  · exact ⟨rfl, rfl⟩

/-- C3. For a path whose mode has other-read set, whatever its other bits, one run of
`fixup_remotes` issues no `chmod` for the path, leaves its record (mode, owner, group)
unchanged, and writes neither a confirmation line nor an error line naming it. This
holds for every such path, so in particular for a discovered one whose `stat`
succeeds. -/
theorem fixup_remotes_skips_other_readable (env : Env) (fs : FS) (p : String)
    (hmode : (fs p).st_mode &&& S_IROTH ≠ 0) :
    (fixup_remotes env fs).1 p = fs p
    ∧ (fixup_remotes env fs).2.filter (Event.chmod_of p) = []
    ∧ (fixup_remotes env fs).2.filter (Event.confirmation_for p) = []
    ∧ (fixup_remotes env fs).2.filter (Event.error_line_for p) = [] := by
  have hno : ∀ e ∈ (fixup_remotes env fs).2,
      Event.chmod_of p e = false ∧ Event.confirmation_for p e = false
        ∧ Event.error_line_for p e = false := by
    intro e he
    rw [fixup_remotes_eq] at he
    rcases List.mem_cons.1 he with h | h
    · subst h; exact ⟨rfl, rfl, rfl⟩
    · exact no_event_about (fun hc => hmode hc.2.2) h
  refine ⟨?_, ?_, ?_, ?_⟩
  · rw [fixup_remotes_eq]
    show (fixup_loop env (env.glob SYSFS_REMOTE_GLOB) fs).1 p = fs p
    rw [fixup_loop_fs, if_neg (fun hc => hmode hc.2.2.1)]
  · rw [List.filter_eq_nil_iff]
    intro e he; rw [(hno e he).1]; exact Bool.false_ne_true
  · rw [List.filter_eq_nil_iff]
    intro e he; rw [(hno e he).2.1]; exact Bool.false_ne_true
  · rw [List.filter_eq_nil_iff]
    intro e he; rw [(hno e he).2.2]; exact Bool.false_ne_true

/-- Witness of C3: a remote of mode 0604 (other-read set, group-read clear) stays
0604. -/
theorem fixup_remotes_skips_other_readable_witness :
    remote_a ∈ env_one.glob SYSFS_REMOTE_GLOB ∧ env_one.stat_ok remote_a = true
    ∧ (fs_0604 remote_a).st_mode &&& S_IROTH ≠ 0
    ∧ ((fixup_remotes env_one fs_0604).1 remote_a).st_mode = 0o100604
    ∧ (fixup_remotes env_one fs_0604).2.filter (Event.chmod_of remote_a) = [] :=
  ⟨by decide, by decide, by decide,
    (congrArg stat.st_mode (fixup_remotes_skips_other_readable env_one fs_0604 remote_a
      (by decide)).1).trans (by decide),
    (fixup_remotes_skips_other_readable env_one fs_0604 remote_a (by decide)).2.1⟩

/-- C4. For a path discovered once (`front` before it, `back` after it) whose `stat`
succeeds with a mode lacking other-read and whose `chmod` fails with `reason`, one run
of `fixup_remotes` leaves the file's record unchanged; its trace is the events of the
paths before it, the failed `chmod`, the error line, then the events of the paths
after it, which are handled from the file system the paths before it left; the only
error line naming the path is that one, its text is the path in the fixed wording
followed by colon, blank, the reason and a newline; no confirmation line names it. -/
theorem fixup_remotes_chmod_failure (env : Env) (fs : FS) (p reason : String)
    (front back : List String)
    (hglob : env.glob SYSFS_REMOTE_GLOB = front ++ p :: back)
    (hfront : p ∉ front) (hback : p ∉ back)
    (hstat : env.stat_ok p = true) (hmode : (fs p).st_mode &&& S_IROTH = 0)
    (hchmod : env.chmod_errno p = some reason) :
    (fixup_remotes env fs).1 p = fs p
    ∧ (fixup_remotes env fs).1 = (fixup_loop env back (fixup_loop env front fs).1).1
    ∧ (fixup_remotes env fs).2 =
        Event.glob SYSFS_REMOTE_GLOB :: ((fixup_loop env front fs).2
          ++ [Event.chmod p ((fs p).st_mode ||| S_IRGRP ||| S_IROTH) false,
              Event.perror ("Unable to update permission for '" ++ p ++ "'") reason]
          ++ (fixup_loop env back (fixup_loop env front fs).1).2)
    ∧ (fixup_remotes env fs).2.filter (Event.error_line_for p)
        = [Event.perror ("Unable to update permission for '" ++ p ++ "'") reason]
    ∧ Event.err_text (Event.perror ("Unable to update permission for '" ++ p ++ "'") reason)
        = "Unable to update permission for '" ++ p ++ "'" ++ ": " ++ reason ++ "\n"
    ∧ (fixup_remotes env fs).2.filter (Event.confirmation_for p) = [] := by
  have hfs : (fixup_loop env front fs).1 p = fs p := by
    rw [fixup_loop_fs, if_neg (fun h => hfront h.1)]
  have hpath : fixup_path env p (fixup_loop env front fs).1 =
      ((fixup_loop env front fs).1,
        [Event.chmod p ((fs p).st_mode ||| S_IRGRP ||| S_IROTH) false,
         Event.perror (msg_unable p) reason]) := by
    rw [fixup_path_fail hstat (by rw [hfs]; exact hmode) hchmod, hfs]
  have hloop : fixup_loop env (front ++ p :: back) fs =
      ((fixup_loop env back (fixup_loop env front fs).1).1,
        (fixup_loop env front fs).2
          ++ [Event.chmod p ((fs p).st_mode ||| S_IRGRP ||| S_IROTH) false,
              Event.perror (msg_unable p) reason]
          ++ (fixup_loop env back (fixup_loop env front fs).1).2) := by
    rw [fixup_loop_append, fixup_loop_cons, hpath]
    simp only [List.append_assoc]
  refine ⟨?_, ?_, ?_, ?_, rfl, ?_⟩
  · rw [fixup_remotes_eq]
    show (fixup_loop env (env.glob SYSFS_REMOTE_GLOB) fs).1 p = fs p
    rw [fixup_loop_fs, if_neg]
    intro hc
    rw [hchmod] at hc
    exact Option.noConfusion hc.2.2.2
  · rw [fixup_remotes_eq, hglob, hloop]
  · rw [fixup_remotes_eq, hglob, hloop]
    rfl
  · rw [fixup_remotes_eq, hglob]
    show List.filter (Event.error_line_for p)
      (Event.glob SYSFS_REMOTE_GLOB :: (fixup_loop env (front ++ p :: back) fs).2) = _
    rw [List.filter_cons_of_neg (by simp [Event.error_line_for]),
      filter_loop_of_chmod_fail (Event.error_line_for p) (fun e h => Or.inr (Or.inr h))
        hchmod hstat front back fs hfront hback hmode]
    simp [Event.error_line_for, msg_unable]
  · rw [fixup_remotes_eq, hglob]
    show List.filter (Event.confirmation_for p)
      (Event.glob SYSFS_REMOTE_GLOB :: (fixup_loop env (front ++ p :: back) fs).2) = _
    rw [List.filter_cons_of_neg (by simp [Event.confirmation_for]),
      filter_loop_of_chmod_fail (Event.confirmation_for p) (fun e h => Or.inr (Or.inl h))
        hchmod hstat front back fs hfront hback hmode]
    simp [Event.confirmation_for]

/-- Witness of C4: the third remote of the scenario, on which `chmod` fails, comes
after two others and keeps its mode 0600. -/
theorem fixup_remotes_chmod_failure_witness :
    env3.glob SYSFS_REMOTE_GLOB = [remote_a, remote_b] ++ remote_c :: []
    ∧ remote_c ∉ [remote_a, remote_b] ∧ remote_c ∉ ([] : List String)
    ∧ env3.stat_ok remote_c = true ∧ (fs3 remote_c).st_mode &&& S_IROTH = 0
    ∧ env3.chmod_errno remote_c = some "Operation not permitted"
    ∧ ((fixup_remotes env3 fs3).1 remote_c).st_mode = 0o100600
    ∧ (fixup_remotes env3 fs3).2.filter (Event.error_line_for remote_c)
        = [Event.perror ("Unable to update permission for '" ++ remote_c ++ "'")
            "Operation not permitted"] :=
  ⟨by decide, by decide, by decide, by decide, by decide, by decide,
    (congrArg stat.st_mode (fixup_remotes_chmod_failure env3 fs3 remote_c
      "Operation not permitted" [remote_a, remote_b] [] (by decide) (by decide) (by decide)
      (by decide) (by decide) (by decide)).1).trans (by decide),
    (fixup_remotes_chmod_failure env3 fs3 remote_c
      "Operation not permitted" [remote_a, remote_b] [] (by decide) (by decide) (by decide)
      (by decide) (by decide) (by decide)).2.2.2.1⟩

theorem and_fixed_mode (m : Nat) : m &&& (m ||| S_IRGRP ||| S_IROTH) = m := by
  apply Nat.eq_of_testBit_eq
  intro i
  rw [Nat.testBit_and, testBit_fixed_mode]
  cases m.testBit i <;> simp

theorem xor_fixed_mode (m : Nat) :
    (m ^^^ (m ||| S_IRGRP ||| S_IROTH)) &&& (S_IRGRP ||| S_IROTH)
      = m ^^^ (m ||| S_IRGRP ||| S_IROTH) := by
  have h0 : ∀ i, (S_IRGRP ||| S_IROTH).testBit i = (decide (i = 5) || decide (i = 2)) := by
    intro i
    have := testBit_fixed_mode 0 i
    simpa [Nat.zero_or] using this
  apply Nat.eq_of_testBit_eq
  intro i
  rw [Nat.testBit_and, Nat.testBit_xor, testBit_fixed_mode, h0]
  cases m.testBit i <;> simp

/-- The mode after a cycle is the mode before it, or that mode with group-read and
other-read added. -/
theorem expected_mode_cases (env : Env) (fs : FS) (p : String) :
    expected_mode env fs p = (fs p).st_mode
    ∨ expected_mode env fs p = (fs p).st_mode ||| S_IRGRP ||| S_IROTH := by
  unfold expected_mode
  split
  · exact Or.inr rfl
  · exact Or.inl rfl

/-- The events of a cycle: the `glob` call, lines of output, and `chmod` calls whose
argument is the mode the file had when the cycle began with group-read and other-read
added. -/
theorem fixup_remotes_trace_kinds (env : Env) (fs : FS) :
    ∀ e ∈ (fixup_remotes env fs).2,
      e = Event.glob SYSFS_REMOTE_GLOB ∨ Event.is_message e = true
      ∨ ∃ q ok, e = Event.chmod q ((fs q).st_mode ||| S_IRGRP ||| S_IROTH) ok := by
  intro e he
  rw [fixup_remotes_eq] at he
  rcases List.mem_cons.1 he with h | h
  · exact Or.inl h
  · obtain ⟨q, _, _, _, hq⟩ := mem_fixup_loop_trace h
    rcases fixup_path_cases env q fs with hc | hc | hc
    · rw [hc.2] at hq; simp at hq
    · rw [hc.2.2.2] at hq
      simp only [List.mem_cons, List.mem_singleton, List.not_mem_nil, or_false] at hq
      rcases hq with rfl | rfl
      · exact Or.inr (Or.inr ⟨q, true, rfl⟩)
      · exact Or.inr (Or.inl rfl)
    · obtain ⟨_, _, reason, _, h4⟩ := hc
      rw [h4] at hq
      simp only [List.mem_cons, List.mem_singleton, List.not_mem_nil, or_false] at hq
      rcases hq with rfl | rfl
      · exact Or.inr (Or.inr ⟨q, false, rfl⟩)
      · exact Or.inr (Or.inl rfl)

/-- C5. Normalisation is additive and confined to two bits: for every environment
(every outcome of `glob`, `stat` and `chmod`), every file system and every file, the mode
after one run of `fixup_remotes` has every bit of the mode before it (as a test of
each bit, and as `before & after = before`), the two modes agree in every bit other
than group-read (bit 5) and other-read (bit 2) (as a test of each bit, and as
`(before ^ after) & (S_IRGRP | S_IROTH) = before ^ after`), owner and group are as
before, and every `chmod` call of the trace has the argument
`st_mode | S_IRGRP | S_IROTH` for the mode the file had when the cycle began; the other
events of the trace are the `glob` call and lines of output. -/
theorem fixup_remotes_additive (env : Env) (fs : FS) (p : String) :
    (∀ i, (fs p).st_mode.testBit i = true →
        ((fixup_remotes env fs).1 p).st_mode.testBit i = true)
    ∧ (fs p).st_mode &&& ((fixup_remotes env fs).1 p).st_mode = (fs p).st_mode
    ∧ (∀ i, i ≠ 5 → i ≠ 2 →
        ((fixup_remotes env fs).1 p).st_mode.testBit i = (fs p).st_mode.testBit i)
    ∧ ((fs p).st_mode ^^^ ((fixup_remotes env fs).1 p).st_mode) &&& (S_IRGRP ||| S_IROTH)
        = (fs p).st_mode ^^^ ((fixup_remotes env fs).1 p).st_mode
    ∧ ((fixup_remotes env fs).1 p).st_uid = (fs p).st_uid
    ∧ ((fixup_remotes env fs).1 p).st_gid = (fs p).st_gid
    ∧ (∀ e ∈ (fixup_remotes env fs).2,
        e = Event.glob SYSFS_REMOTE_GLOB ∨ Event.is_message e = true
        ∨ ∃ q ok, e = Event.chmod q ((fs q).st_mode ||| S_IRGRP ||| S_IROTH) ok) := by
  refine ⟨?_, ?_, ?_, ?_, (fixup_remotes_owner env fs p).1, (fixup_remotes_owner env fs p).2, ?_⟩
  · intro i hi
    rw [fixup_remotes_mode]
    rcases expected_mode_cases env fs p with h | h
    · rw [h]; exact hi
    · rw [h, testBit_fixed_mode, hi]; rfl
  · rw [fixup_remotes_mode]
    rcases expected_mode_cases env fs p with h | h
    · rw [h, Nat.and_self]
    · rw [h, and_fixed_mode]
  · intro i h5 h2
    rw [fixup_remotes_mode]
    rcases expected_mode_cases env fs p with h | h
    · rw [h]
    · rw [h, testBit_fixed_mode]; simp [h5, h2]
  · rw [fixup_remotes_mode]
    rcases expected_mode_cases env fs p with h | h
    · rw [h, Nat.xor_self, Nat.zero_and]
    · rw [h, xor_fixed_mode]
  · exact fixup_remotes_trace_kinds env fs

/-- C6, as amended. For every discovered path whose `stat` succeeds and whose `chmod`
would succeed, after one run of `fixup_remotes` the mode has other-read set; it has
group-read set exactly when the mode before lacked other-read or already had
group-read. -/
theorem fixup_remotes_ensures_other_read (env : Env) (fs : FS) (p : String)
    (hmem : p ∈ env.glob SYSFS_REMOTE_GLOB) (hstat : env.stat_ok p = true)
    (hchmod : env.chmod_errno p = none) :
    ((fixup_remotes env fs).1 p).st_mode &&& S_IROTH ≠ 0
    ∧ (((fixup_remotes env fs).1 p).st_mode &&& S_IRGRP ≠ 0 ↔
        ((fs p).st_mode &&& S_IROTH = 0 ∨ (fs p).st_mode &&& S_IRGRP ≠ 0)) := by
  rw [fixup_remotes_mode]
  unfold expected_mode
  by_cases hm : (fs p).st_mode &&& S_IROTH = 0
  · rw [if_pos ⟨hmem, hstat, hm, hchmod⟩]
    exact ⟨fixed_mode_has_S_IROTH _, fun _ => Or.inl hm, fun _ => fixed_mode_has_S_IRGRP _⟩
  · rw [if_neg (fun hc => hm hc.2.2.1)]
    refine ⟨hm, fun h => Or.inr h, fun h => ?_⟩
    rcases h with h | h
    · exact absurd h hm
    · exact h

/-- Witness of C6 as amended: the second remote of the scenario, mode 0700, ends with
other-read and group-read set. -/
theorem fixup_remotes_ensures_other_read_witness :
    remote_b ∈ env3.glob SYSFS_REMOTE_GLOB ∧ env3.stat_ok remote_b = true
    ∧ env3.chmod_errno remote_b = none
    ∧ ((fixup_remotes env3 fs3).1 remote_b).st_mode &&& S_IROTH ≠ 0
    ∧ ((fixup_remotes env3 fs3).1 remote_b).st_mode &&& S_IRGRP ≠ 0 :=
  ⟨by decide, by decide, by decide,
    (fixup_remotes_ensures_other_read env3 fs3 remote_b (by decide) (by decide)
      (by decide)).1,
    (fixup_remotes_ensures_other_read env3 fs3 remote_b (by decide) (by decide)
      (by decide)).2.2 (Or.inl (by decide))⟩

/-- C6, as stated, fails: a discovered remote of mode 0604, on which `stat` and `chmod`
succeed, still has group-read clear after one run of `fixup_remotes`. -/
theorem group_read_not_ensured :
    remote_a ∈ env_one.glob SYSFS_REMOTE_GLOB ∧ env_one.stat_ok remote_a = true
    ∧ env_one.chmod_errno remote_a = none
    ∧ (fs_0604 remote_a).st_mode = 0o100604
    ∧ ((fixup_remotes env_one fs_0604).1 remote_a).st_mode = 0o100604
    ∧ ((fixup_remotes env_one fs_0604).1 remote_a).st_mode &&& S_IRGRP = 0
    ∧ ¬ (∀ (env : Env) (fs : FS) (p : String), p ∈ env.glob SYSFS_REMOTE_GLOB →
          env.stat_ok p = true → env.chmod_errno p = none →
          ((fixup_remotes env fs).1 p).st_mode &&& S_IRGRP ≠ 0
          ∧ ((fixup_remotes env fs).1 p).st_mode &&& S_IROTH ≠ 0) :=
  ⟨by decide, by decide, by decide, by decide, by decide, by decide,
    fun h => (h env_one fs_0604 remote_a (by decide) (by decide) (by decide)).1 (by decide)⟩

/-- After a loop no entry of the vector needs a successful `chmod` any more. -/
theorem fixup_loop_settled (env : Env) (ps : List String) (fs : FS) (q : String) :
    ¬ (q ∈ ps ∧ env.stat_ok q = true ∧ ((fixup_loop env ps fs).1 q).st_mode &&& S_IROTH = 0
        ∧ env.chmod_errno q = none) := by
  rw [fixup_loop_fs]
  split
  · intro hc
    rw [chmod_file_fixed_mode] at hc
    exact fixed_mode_has_S_IROTH _ hc.2.2.1
  · assumption

/-- C8. A cycle is idempotent on the file system. Let a second run of
`fixup_remotes` follow the first with nothing else touching the files: `stat` and
`chmod` answer for every path as they did in the first cycle, and `glob` finds no path
it did not find in the first cycle (in any order). Then the second run leaves every
file as the first left it, and its trace has no successful `chmod` and no confirmation
line; a file the first run changed has other-read set and the second run issues no
`chmod` for it. -/
theorem fixup_remotes_idempotent (env env2 : Env) (fs : FS)
    (hstat : ∀ q, env2.stat_ok q = env.stat_ok q)
    (hchmod : ∀ q, env2.chmod_errno q = env.chmod_errno q)
    (hglob : ∀ q, q ∈ env2.glob SYSFS_REMOTE_GLOB → q ∈ env.glob SYSFS_REMOTE_GLOB) :
    (fixup_remotes env2 (fixup_remotes env fs).1).1 = (fixup_remotes env fs).1
    ∧ (∀ e ∈ (fixup_remotes env2 (fixup_remotes env fs).1).2,
        ∀ q mode, e ≠ Event.chmod q mode true)
    ∧ (∀ e ∈ (fixup_remotes env2 (fixup_remotes env fs).1).2, ∀ s, e ≠ Event.stdout s)
    ∧ (∀ q, (fixup_remotes env fs).1 q ≠ fs q →
        ((fixup_remotes env fs).1 q).st_mode &&& S_IROTH ≠ 0
        ∧ (fixup_remotes env2 (fixup_remotes env fs).1).2.filter (Event.chmod_of q) = []) := by
  have h1 : (fixup_remotes env fs).1 = (fixup_loop env (env.glob SYSFS_REMOTE_GLOB) fs).1 := by
    rw [fixup_remotes_eq]
  have hset : ∀ q, ¬ (q ∈ env2.glob SYSFS_REMOTE_GLOB ∧ env2.stat_ok q = true
      ∧ ((fixup_remotes env fs).1 q).st_mode &&& S_IROTH = 0 ∧ env2.chmod_errno q = none) := by
    intro q hc
    rw [hstat, hchmod, h1] at hc
    exact fixup_loop_settled env _ fs q ⟨hglob q hc.1, hc.2⟩
  have hev : ∀ e ∈ (fixup_remotes env2 (fixup_remotes env fs).1).2,
      e = Event.glob SYSFS_REMOTE_GLOB ∨ ∃ q reason,
        e = Event.chmod q (((fixup_remotes env fs).1 q).st_mode ||| S_IRGRP ||| S_IROTH) false
        ∨ e = Event.perror (msg_unable q) reason := by
    intro e he
    rw [fixup_remotes_eq] at he
    rcases List.mem_cons.1 he with h | h
    · exact Or.inl h
    · obtain ⟨q, hq, _, _, hmem⟩ := mem_fixup_loop_trace h
      rcases fixup_path_cases env2 q (fixup_remotes env fs).1 with hc | hc | hc
      · rw [hc.2] at hmem; simp at hmem
      · exact absurd ⟨hq, hc.1, hc.2.1, hc.2.2.1⟩ (hset q)
      · obtain ⟨_, _, reason, _, h4⟩ := hc
        rw [h4] at hmem
        simp only [List.mem_cons, List.mem_singleton, List.not_mem_nil, or_false] at hmem
        rcases hmem with rfl | rfl
        · exact Or.inr ⟨q, reason, Or.inl rfl⟩
        · exact Or.inr ⟨q, reason, Or.inr rfl⟩
  refine ⟨?_, ?_, ?_, ?_⟩
  · funext q
    rw [fixup_remotes_eq env2 (fixup_remotes env fs).1]
    show (fixup_loop env2 (env2.glob SYSFS_REMOTE_GLOB) (fixup_remotes env fs).1).1 q = _
    rw [fixup_loop_fs, if_neg (hset q)]
  · intro e he q mode heq
    subst heq
    rcases hev _ he with h | ⟨_, _, h | h⟩
    · exact Event.noConfusion h
    · injection h with _ _ hb
      exact Bool.noConfusion hb
    · exact Event.noConfusion h
  · intro e he s heq
    subst heq
    rcases hev _ he with h | ⟨_, _, h | h⟩
    · exact Event.noConfusion h
    · exact Event.noConfusion h
    · exact Event.noConfusion h
  · intro q hq
    have hroth : ((fixup_remotes env fs).1 q).st_mode &&& S_IROTH ≠ 0 := by
      rw [h1, fixup_loop_fs] at hq ⊢
      split
      · rw [chmod_file_fixed_mode]; exact fixed_mode_has_S_IROTH _
      · rename_i hc
        rw [if_neg hc] at hq
        exact absurd rfl hq
    refine ⟨hroth, ?_⟩
    rw [List.filter_eq_nil_iff]
    intro e he
    rw [fixup_remotes_eq] at he
    rcases List.mem_cons.1 he with h | h
    · subst h; exact Bool.false_ne_true
    · rw [(no_event_about (p := q) (fun hc => hroth hc.2.2) h).1]
      exact Bool.false_ne_true

/-- Witness of C8: the scenario run twice, the second `glob` listing the remotes in
the opposite order. After both runs the modes are 0644, 0744 and 0600. -/
theorem fixup_remotes_idempotent_witness :
    (∀ q, env3_rev.stat_ok q = env3.stat_ok q)
    ∧ (∀ q, env3_rev.chmod_errno q = env3.chmod_errno q)
    ∧ (∀ q, q ∈ env3_rev.glob SYSFS_REMOTE_GLOB → q ∈ env3.glob SYSFS_REMOTE_GLOB)
    ∧ (fixup_remotes env3_rev (fixup_remotes env3 fs3).1).1 = (fixup_remotes env3 fs3).1
    ∧ ((fixup_remotes env3 fs3).1 remote_a).st_mode = 0o100644
    ∧ ((fixup_remotes env3 fs3).1 remote_b).st_mode = 0o100744
    ∧ ((fixup_remotes env3 fs3).1 remote_c).st_mode = 0o100600 :=
  ⟨fun _ => rfl, fun _ => rfl, fun q h => by simpa [env3, env3_rev, or_comm, or_left_comm] using h,
    (fixup_remotes_idempotent env3 env3_rev fs3 (fun _ => rfl) (fun _ => rfl)
      (fun q h => by simpa [env3, env3_rev, or_comm, or_left_comm] using h)).1,
    by decide, by decide, by decide⟩

/-! ## The trace of a cycle, path by path -/

/-- When no path occurs twice in the vector, the events of a loop that a test `P`
keeps are, entry by entry, what `f` tells from the file system the loop began with,
provided `f` tells what handling one entry gives and looks at that file only. -/
theorem filter_loop_nodup (env : Env) (P : Event → Bool) (f : FS → String → Option Event)
    (hf : ∀ fs q, (fixup_path env q fs).2.filter P = (f fs q).toList)
    (hcongr : ∀ (fs fs2 : FS) q, fs2 q = fs q → f fs2 q = f fs q) :
    ∀ (ps : List String) (fs : FS), ps.Nodup →
      (fixup_loop env ps fs).2.filter P = ps.filterMap (f fs) := by
  intro ps
  induction ps with
  | nil => intro fs _; simp [fixup_loop]
  | cons p rest ih =>
    intro fs hnd
    have hp : p ∉ rest := (List.nodup_cons.1 hnd).1
    rw [fixup_loop_cons]
    show List.filter P ((fixup_path env p fs).2 ++ (fixup_loop env rest (fixup_path env p fs).1).2) = _
    rw [List.filter_append, hf, ih _ (List.nodup_cons.1 hnd).2]
    have hrest : List.filterMap (f (fixup_path env p fs).1) rest = List.filterMap (f fs) rest := by
      apply List.filterMap_congr
      intro q hq
      apply hcongr
      apply fixup_path_other
      intro hqp
      exact hp (hqp ▸ hq)
    rw [hrest]
    cases hfp : f fs p with
    | none => rw [List.filterMap_cons_none hfp]; rfl
    | some b => rw [List.filterMap_cons_some hfp]; rfl

theorem filter_message_fixup_path (env : Env) (fs : FS) (q : String) :
    (fixup_path env q fs).2.filter Event.is_message = (expected_message env fs q).toList := by
  unfold expected_message
  rcases fixup_path_cases env q fs with hc | hc | hc
  · rw [hc.2, if_neg hc.1]; rfl
  · rw [hc.2.2.2, if_pos ⟨hc.1, hc.2.1⟩, hc.2.2.1]; rfl
  · obtain ⟨h1, h2, reason, h3, h4⟩ := hc
    rw [h4, if_pos ⟨h1, h2⟩, h3]; rfl

theorem filter_chmod_fixup_path (env : Env) (fs : FS) (q : String) :
    (fixup_path env q fs).2.filter Event.is_chmod = (expected_chmod env fs q).toList := by
  unfold expected_chmod
  rcases fixup_path_cases env q fs with hc | hc | hc
  · rw [hc.2, if_neg hc.1]; rfl
  · rw [hc.2.2.2, if_pos ⟨hc.1, hc.2.1⟩, hc.2.2.1]; rfl
  · obtain ⟨h1, h2, reason, h3, h4⟩ := hc
    rw [h4, if_pos ⟨h1, h2⟩, h3]; rfl

/-- C7. Output of one cycle, for every vector of discovered paths in which no path
occurs twice. The messages of one run of `fixup_remotes` are, in discovery order, the
expected message of each discovered path: the confirmation line or the error line
for a path whose `stat` succeeds and whose mode lacks other-read, nothing for any
other path. The `chmod` calls are, in the same order, one for each such path and none
for any other, and each file ends with the expected mode. A path whose `stat` fails
has no `chmod`, no line naming it and its record unchanged. A cycle whose `glob` finds
no path leaves the file system as it was and only calls `glob`. -/
theorem fixup_remotes_messages (env : Env) (fs : FS)
    (hnodup : (env.glob SYSFS_REMOTE_GLOB).Nodup) :
    (fixup_remotes env fs).2.filter Event.is_message
      = (env.glob SYSFS_REMOTE_GLOB).filterMap (expected_message env fs)
    ∧ (fixup_remotes env fs).2.filter Event.is_chmod
      = (env.glob SYSFS_REMOTE_GLOB).filterMap (expected_chmod env fs)
    ∧ (∀ p, ((fixup_remotes env fs).1 p).st_mode = expected_mode env fs p)
    ∧ (∀ p, env.stat_ok p = false →
        (fixup_remotes env fs).1 p = fs p
        ∧ (fixup_remotes env fs).2.filter (Event.chmod_of p) = []
        ∧ (fixup_remotes env fs).2.filter (Event.confirmation_for p) = []
        ∧ (fixup_remotes env fs).2.filter (Event.error_line_for p) = [])
    ∧ (env.glob SYSFS_REMOTE_GLOB = [] →
        fixup_remotes env fs = (fs, [Event.glob SYSFS_REMOTE_GLOB])) := by
  refine ⟨?_, ?_, fixup_remotes_mode env fs, ?_, ?_⟩
  · rw [fixup_remotes_eq]
    show List.filter Event.is_message
      (Event.glob SYSFS_REMOTE_GLOB :: (fixup_loop env (env.glob SYSFS_REMOTE_GLOB) fs).2) = _
    rw [List.filter_cons_of_neg (by simp [Event.is_message])]
    apply filter_loop_nodup env Event.is_message (expected_message env)
      (filter_message_fixup_path env) _ _ fs hnodup
    intro fs1 fs2 q h
    unfold expected_message
    rw [h]
  · rw [fixup_remotes_eq]
    show List.filter Event.is_chmod
      (Event.glob SYSFS_REMOTE_GLOB :: (fixup_loop env (env.glob SYSFS_REMOTE_GLOB) fs).2) = _
    rw [List.filter_cons_of_neg (by simp [Event.is_chmod])]
    apply filter_loop_nodup env Event.is_chmod (expected_chmod env)
      (filter_chmod_fixup_path env) _ _ fs hnodup
    intro fs1 fs2 q h
    unfold expected_chmod
    rw [h]
  · intro p hp
    have hne : ¬ env.stat_ok p = true := by rw [hp]; exact Bool.false_ne_true
    have hno : ∀ e ∈ (fixup_remotes env fs).2,
        Event.chmod_of p e = false ∧ Event.confirmation_for p e = false
          ∧ Event.error_line_for p e = false := by
      intro e he
      rw [fixup_remotes_eq] at he
      rcases List.mem_cons.1 he with h | h
      · subst h; exact ⟨rfl, rfl, rfl⟩
      · exact no_event_about (fun hc => hne hc.2.1) h
    refine ⟨?_, ?_, ?_, ?_⟩
    · rw [fixup_remotes_eq]
      show (fixup_loop env (env.glob SYSFS_REMOTE_GLOB) fs).1 p = fs p
      rw [fixup_loop_fs, if_neg (fun hc => hne hc.2.1)]
    · rw [List.filter_eq_nil_iff]
      intro e he; rw [(hno e he).1]; exact Bool.false_ne_true
    · rw [List.filter_eq_nil_iff]
      intro e he; rw [(hno e he).2.1]; exact Bool.false_ne_true
    · rw [List.filter_eq_nil_iff]
      intro e he; rw [(hno e he).2.2]; exact Bool.false_ne_true
  · intro h
    rw [fixup_remotes_eq, h]
    rfl

/-- Witness of C7: the scenario of three remotes (other-read set; lacking it and
changeable; lacking it and not changeable) gives no message for the first, the
confirmation line for the second and the error line for the third, one `chmod` for
each of the last two, and the modes 0644, 0744 and 0600. -/
theorem fixup_remotes_messages_witness :
    (env3.glob SYSFS_REMOTE_GLOB).Nodup
    ∧ (fixup_remotes env3 fs3).2.filter Event.is_message
      = [Event.stdout ("Permissions updated for '" ++ remote_b ++ "'\n"),
         Event.perror ("Unable to update permission for '" ++ remote_c ++ "'")
           "Operation not permitted"]
    ∧ (fixup_remotes env3 fs3).2.filter Event.is_chmod
      = [Event.chmod remote_b 0o100744 true, Event.chmod remote_c 0o100644 false]
    ∧ ((fixup_remotes env3 fs3).1 remote_a).st_mode = 0o100644
    ∧ ((fixup_remotes env3 fs3).1 remote_b).st_mode = 0o100744
    ∧ ((fixup_remotes env3 fs3).1 remote_c).st_mode = 0o100600 :=
  ⟨by decide,
    (fixup_remotes_messages env3 fs3 (by decide)).1.trans (by decide),
    (fixup_remotes_messages env3 fs3 (by decide)).2.1.trans (by decide),
    ((fixup_remotes_messages env3 fs3 (by decide)).2.2.1 remote_a).trans (by decide),
    ((fixup_remotes_messages env3 fs3 (by decide)).2.2.1 remote_b).trans (by decide),
    ((fixup_remotes_messages env3 fs3 (by decide)).2.2.1 remote_c).trans (by decide)⟩

/-! ## Start-up and the poll loop -/

theorem filter_nanosleep_fixup_remotes (env : Env) (fs : FS) :
    (fixup_remotes env fs).2.filter Event.is_nanosleep = [] := by
  rw [List.filter_eq_nil_iff]
  intro e he
  rcases fixup_remotes_trace_kinds env fs e he with h | h | ⟨q, ok, h⟩
  · subst h; exact Bool.false_ne_true
  · cases e <;> first | exact Bool.false_ne_true | exact Bool.noConfusion h
  · subst h; exact Bool.false_ne_true

/-- The loop sleeps once a round, always for the interval built from `timer_ns`. -/
theorem mainloop_nanosleep (timer_ns : Int) (envs : Nat → Env) (n : Nat) (fs : FS) :
    (mainloop timer_ns envs n fs).2.filter Event.is_nanosleep
      = List.replicate n
          (Event.nanosleep (NSEC_TO_TIMESPEC timer_ns).1 (NSEC_TO_TIMESPEC timer_ns).2) := by
  induction n with
  | zero => rfl
  | succ n ih =>
    show List.filter Event.is_nanosleep
      ((mainloop timer_ns envs n fs).2 ++ (fixup_remotes (envs n) (mainloop timer_ns envs n fs).1).2
        ++ [Event.nanosleep (NSEC_TO_TIMESPEC timer_ns).1 (NSEC_TO_TIMESPEC timer_ns).2]) = _
    rw [List.filter_append, List.filter_append, ih, filter_nanosleep_fixup_remotes,
      List.append_nil, List.replicate_succ']
    rfl

theorem root_warning_stderr (euid : Nat) : ∀ e ∈ root_warning euid, ∃ t, e = Event.stderr t := by
  intro e he
  unfold root_warning at he
  split at he
  · exact ⟨_, List.mem_singleton.1 he⟩
  · simp at he

theorem filter_nanosleep_root_warning (euid : Nat) :
    (root_warning euid).filter Event.is_nanosleep = [] := by
  rw [List.filter_eq_nil_iff]
  intro e he
  obtain ⟨t, rfl⟩ := root_warning_stderr euid e he
  exact Bool.false_ne_true

theorem help_stderr (name : String) : ∀ e ∈ help name, ∃ t, e = Event.stderr t := by
  intro e he
  unfold help at he
  simp only [List.mem_cons, List.mem_singleton, List.not_mem_nil, or_false] at he
  rcases he with h | h | h | h | h <;> exact ⟨_, h⟩

/-- The rate in range gives a timer: the divisor is not zero. -/
theorem HZ_TO_NSEC_of_range {hz : Int} (hlo : 1 ≤ hz) :
    HZ_TO_NSEC hz = some (Int.tdiv 1000000000 hz) := by
  unfold HZ_TO_NSEC
  rw [if_neg (by omega)]

/-- `main` with no argument. -/
theorem main_no_argument (atoi : String → Int) (prog : String) (euid : Nat)
    (envs : Nat → Env) (cycles : Nat) (fs : FS) :
    main atoi [prog] euid envs cycles fs =
      ⟨(mainloop 200000000 envs cycles fs).1,
        root_warning euid ++ (mainloop 200000000 envs cycles fs).2,
        Status.in_mainloop 200000000⟩ := by
  have h : HZ_TO_NSEC HZ_DEFAULT = some 200000000 := by decide
  simp [main, h]

/-- `main` with one argument in range. -/
theorem main_rate_accepted (atoi : String → Int) (prog a : String) (euid : Nat)
    (envs : Nat → Env) (cycles : Nat) (fs : FS) (hlo : 1 ≤ atoi a) (hhi : atoi a ≤ 1000) :
    main atoi [prog, a] euid envs cycles fs =
      ⟨(mainloop (Int.tdiv 1000000000 (atoi a)) envs cycles fs).1,
        root_warning euid ++ (mainloop (Int.tdiv 1000000000 (atoi a)) envs cycles fs).2,
        Status.in_mainloop (Int.tdiv 1000000000 (atoi a))⟩ := by
  have h : ¬ (atoi a < HZ_LOWER ∨ atoi a > HZ_UPPER) := by
    unfold HZ_LOWER HZ_UPPER; omega
  simp [main, h, HZ_TO_NSEC_of_range hlo]

/-- `main` with one argument out of range. -/
theorem main_rate_rejected (atoi : String → Int) (prog a : String) (euid : Nat)
    (envs : Nat → Env) (cycles : Nat) (fs : FS) (hbad : atoi a < 1 ∨ atoi a > 1000) :
    main atoi [prog, a] euid envs cycles fs =
      ⟨fs, [Event.stderr "Invalid hz value. Must be between 1 and 1000.\n",
            Event.stderr "\n"] ++ help prog, Status.exited 1⟩ := by
  have h : atoi a < HZ_LOWER ∨ atoi a > HZ_UPPER := by
    unfold HZ_LOWER HZ_UPPER; omega
  have ht : "Invalid hz value. Must be between " ++ toString HZ_LOWER ++ " and "
      ++ toString HZ_UPPER ++ ".\n" = "Invalid hz value. Must be between 1 and 1000.\n" := by
    decide
  simp [main, h, ht]

/-- `main` with two arguments or more. -/
theorem main_too_many (atoi : String → Int) (prog a b : String) (rest : List String)
    (euid : Nat) (envs : Nat → Env) (cycles : Nat) (fs : FS) :
    main atoi (prog :: a :: b :: rest) euid envs cycles fs =
      ⟨fs, help prog, Status.exited 1⟩ := by
  simp [main]

/-- Arithmetic of the interval for a rate in range. -/
theorem interval_bounds {hz ns : Int} (hlo : 1 ≤ hz) (hhi : hz ≤ 1000)
    (hns : ns = 1000000000 / hz) :
    ns * hz ≤ 1000000000 ∧ 1000000000 < (ns + 1) * hz
    ∧ 1000000 ≤ ns ∧ ns ≤ 1000000000 ∧ (2 ≤ hz → ns ≤ 500000000)
    ∧ (ns = 1000000000 → hz = 1) := by
  have hle : ns * hz ≤ 1000000000 := by
    rw [hns]; exact Int.ediv_mul_le _ (by omega)
  have hlt : 1000000000 < (ns + 1) * hz := by
    rw [hns]; exact Int.lt_ediv_add_one_mul_self _ (by omega)
  have h0 : 0 ≤ ns := by
    rw [hns]; exact Int.ediv_nonneg (by decide) (by omega)
  refine ⟨hle, hlt, ?_, ?_, ?_, ?_⟩
  · nlinarith
  · nlinarith
  · intro h2; nlinarith
  · intro h; rw [h] at hle; omega

/-- C10. Sleep interval arithmetic. For every accepted rate `hz`, from `HZ_LOWER` to
`HZ_UPPER`, the divisor of `HZ_TO_NSEC(hz)` is not zero and the macro has a value
`ns`, the floor of `10^9 / hz` (`ns * hz <= 10^9 < (ns + 1) * hz`); the `timespec`
`(sec, nsec)` that `NSEC_TO_TIMESPEC` builds from it satisfies
`sec * 10^9 + nsec = ns` and `0 <= nsec < 10^9`; the interval is at least 1000000 ns
and at most `10^9` ns; `sec = 1` with `nsec = 0` exactly when `hz = 1`, and `sec = 0`
from `hz = 2` on; the rate, the constant `10^9`, `ns`, `sec` and `nsec` all lie in the
range of a signed 32-bit integer. `main`, given that rate as its one argument, enters
`mainloop` with `ns`, and every round sleeps for `(sec, nsec)`. -/
theorem sleep_interval (hz : Int) (hlo : HZ_LOWER ≤ hz) (hhi : hz ≤ HZ_UPPER) :
    ∃ ns sec nsec : Int,
      hz ≠ 0
      ∧ HZ_TO_NSEC hz = some ns
      ∧ NSEC_TO_TIMESPEC ns = (sec, nsec)
      ∧ ns * hz ≤ 1000000000 ∧ 1000000000 < (ns + 1) * hz
      ∧ sec * 1000000000 + nsec = ns
      ∧ 0 ≤ nsec ∧ nsec < 1000000000
      ∧ 1000000 ≤ ns ∧ ns ≤ 1000000000
      ∧ ((sec = 1 ∧ nsec = 0) ↔ hz = 1)
      ∧ (2 ≤ hz → sec = 0)
      ∧ (∀ x ∈ [hz, 1000000000, ns, sec, nsec], -2147483648 ≤ x ∧ x ≤ 2147483647)
      ∧ (∀ (atoi : String → Int) (prog a : String) (euid : Nat) (envs : Nat → Env)
          (cycles : Nat) (fs : FS), atoi a = hz →
          (main atoi [prog, a] euid envs cycles fs).status = Status.in_mainloop ns
          ∧ (main atoi [prog, a] euid envs cycles fs).trace.filter Event.is_nanosleep
              = List.replicate cycles (Event.nanosleep sec nsec)) := by
  have hlo1 : 1 ≤ hz := hlo
  have hhi1 : hz ≤ 1000 := hhi
  obtain ⟨hle, hlt, hnlo, hnhi, htwo, hone⟩ := interval_bounds hlo1 hhi1 rfl
  have hdiv : Int.tdiv 1000000000 hz = 1000000000 / hz :=
    Int.tdiv_eq_ediv (by decide) (by omega)
  have hspec : NSEC_TO_TIMESPEC (1000000000 / hz)
      = (1000000000 / hz / 1000000000, 1000000000 / hz % 1000000000) := by
    unfold NSEC_TO_TIMESPEC
    rw [Int.tdiv_eq_ediv (by omega) (by decide), Int.tmod_eq_emod (by omega) (by decide)]
  refine ⟨1000000000 / hz, 1000000000 / hz / 1000000000, 1000000000 / hz % 1000000000,
    by omega, ?_, hspec, hle, hlt, ?_, ?_, ?_, hnlo, hnhi, ?_, ?_, ?_, ?_⟩
  · rw [HZ_TO_NSEC_of_range hlo1, hdiv]
  · generalize 1000000000 / hz = ns at hnlo hnhi
    omega
  · generalize 1000000000 / hz = ns at hnlo hnhi
    omega
  · generalize 1000000000 / hz = ns at hnlo hnhi
    omega
  · constructor
    · intro h
      apply hone
      generalize 1000000000 / hz = ns at hnlo hnhi h
      omega
    · intro h
      subst h
      decide
  · intro h2
    have := htwo h2
    generalize 1000000000 / hz = ns at hnlo hnhi this
    omega
  · intro x hx
    simp only [List.mem_cons, List.mem_singleton, List.not_mem_nil, or_false] at hx
    generalize 1000000000 / hz = ns at hnlo hnhi hx
    rcases hx with h | h | h | h | h <;> omega
  · intro atoi prog a euid envs cycles fs ha
    have h1 : 1 ≤ atoi a := by rw [ha]; exact hlo1
    have h2 : atoi a ≤ 1000 := by rw [ha]; exact hhi1
    rw [main_rate_accepted atoi prog a euid envs cycles fs h1 h2, ha, hdiv]
    refine ⟨rfl, ?_⟩
    show List.filter Event.is_nanosleep
      (root_warning euid ++ (mainloop (1000000000 / hz) envs cycles fs).2) = _
    rw [List.filter_append, filter_nanosleep_root_warning, List.nil_append,
      mainloop_nanosleep, hspec]

/-- Witness of C10: the rate 7 gives 142857142 ns, the interval (0, 142857142). -/
theorem sleep_interval_witness :
    HZ_LOWER ≤ 7 ∧ (7 : Int) ≤ HZ_UPPER
    ∧ HZ_TO_NSEC 7 = some 142857142
    ∧ NSEC_TO_TIMESPEC 142857142 = (0, 142857142)
    ∧ ∃ ns sec nsec : Int, HZ_TO_NSEC 7 = some ns ∧ NSEC_TO_TIMESPEC ns = (sec, nsec)
        ∧ sec * 1000000000 + nsec = ns ∧ 1000000 ≤ ns ∧ ns ≤ 1000000000 :=
  ⟨by decide, by decide, by decide, by decide,
    match sleep_interval 7 (by decide) (by decide) with
    | ⟨ns, sec, nsec, _, h1, h2, _, _, h3, _, _, h4, h5, _⟩ => ⟨ns, sec, nsec, h1, h2, h3, h4, h5⟩⟩

/-- C9. With no command-line argument (`argc = 1`) the rate is the default
`HZ_DEFAULT = 5`: `main` calls `mainloop` with `HZ_TO_NSEC(5) = 200000000`, every
round sleeps for 0 seconds and 200000000 nanoseconds, and the help text names the
same default, 5. -/
theorem default_rate (atoi : String → Int) (prog : String) (euid : Nat)
    (envs : Nat → Env) (cycles : Nat) (fs : FS) :
    HZ_DEFAULT = 5
    ∧ HZ_TO_NSEC HZ_DEFAULT = some 200000000
    ∧ NSEC_TO_TIMESPEC 200000000 = (0, 200000000)
    ∧ (main atoi [prog] euid envs cycles fs).status = Status.in_mainloop 200000000
    ∧ (main atoi [prog] euid envs cycles fs).trace.filter Event.is_nanosleep
        = List.replicate cycles (Event.nanosleep 0 200000000)
    ∧ Event.stderr "  hz            Polling rate for new devices in Hz (default 5)\n"
        ∈ help prog := by
  refine ⟨rfl, by decide, by decide, ?_, ?_, ?_⟩
  · rw [main_no_argument]
  · rw [main_no_argument]
    show List.filter Event.is_nanosleep
      (root_warning euid ++ (mainloop 200000000 envs cycles fs).2) = _
    rw [List.filter_append, filter_nanosleep_root_warning, List.nil_append,
      mainloop_nanosleep]
    rfl
  · have ht : "  hz            Polling rate for new devices in Hz (default "
        ++ toString HZ_DEFAULT ++ ")\n"
        = "  hz            Polling rate for new devices in Hz (default 5)\n" := by decide
    unfold help
    rw [ht]
    simp

/-- C1. Start-up decision of `main`, for every `atoi`, every program name `prog`
(`argv[0]`), every list `args` of arguments after it, and every effective user id.

* `main` ends with exit status 1 exactly when more than one argument is given, or one
  argument is given and the integer `atoi` reads from it is below 1 or above 1000.
* When it ends so, the file system is untouched and every event is a line on the
  error stream: no `glob`, no `chmod`, no `nanosleep`.
* With no argument `main` is in `mainloop` with the timer of rate 5, and with one
  argument of rate `r`, `1 <= r <= 1000`, with `HZ_TO_NSEC(r)`; what comes before the
  rounds of the loop is only the warning of `root_warning`.
* The warning is empty for the effective user id 0 and one line on the error stream
  for any other.
* The division of `HZ_TO_NSEC` is never undefined. -/
theorem main_startup (atoi : String → Int) (prog : String) (args : List String) (euid : Nat)
    (envs : Nat → Env) (cycles : Nat) (fs : FS) :
    ((main atoi (prog :: args) euid envs cycles fs).status = Status.exited 1
      ↔ (1 < args.length ∨ ∃ a, args = [a] ∧ (atoi a < 1 ∨ atoi a > 1000)))
    ∧ ((main atoi (prog :: args) euid envs cycles fs).status = Status.exited 1 →
        (main atoi (prog :: args) euid envs cycles fs).fs = fs
        ∧ ∀ e ∈ (main atoi (prog :: args) euid envs cycles fs).trace, ∃ t, e = Event.stderr t)
    ∧ (args = [] →
        HZ_TO_NSEC 5 = some 200000000
        ∧ main atoi (prog :: args) euid envs cycles fs =
          ⟨(mainloop 200000000 envs cycles fs).1,
            root_warning euid ++ (mainloop 200000000 envs cycles fs).2,
            Status.in_mainloop 200000000⟩)
    ∧ (∀ a, args = [a] → 1 ≤ atoi a → atoi a ≤ 1000 →
        HZ_TO_NSEC (atoi a) = some (Int.tdiv 1000000000 (atoi a))
        ∧ main atoi (prog :: args) euid envs cycles fs =
          ⟨(mainloop (Int.tdiv 1000000000 (atoi a)) envs cycles fs).1,
            root_warning euid ++ (mainloop (Int.tdiv 1000000000 (atoi a)) envs cycles fs).2,
            Status.in_mainloop (Int.tdiv 1000000000 (atoi a))⟩)
    ∧ root_warning 0 = []
    ∧ (euid ≠ 0 → root_warning euid =
        [Event.stderr "Program not running as root. May not be able to fix permissions!\n"])
    ∧ (main atoi (prog :: args) euid envs cycles fs).status ≠ Status.undefined := by
  refine ⟨?_, ?_, ?_, ?_, rfl, fun h => by unfold root_warning; rw [if_pos h], ?_⟩
  · match args with
    | [] =>
      rw [main_no_argument]
      simp
    | [a] =>
      by_cases hbad : atoi a < 1 ∨ atoi a > 1000
      · rw [main_rate_rejected atoi prog a euid envs cycles fs hbad]
        simp [hbad]
      · rw [main_rate_accepted atoi prog a euid envs cycles fs (by omega) (by omega)]
        simp [hbad]
    | a :: b :: rest =>
      rw [main_too_many]
      simp
  · match args with
    | [] =>
      rw [main_no_argument]
      intro h
      exact absurd h (by simp)
    | [a] =>
      by_cases hbad : atoi a < 1 ∨ atoi a > 1000
      · rw [main_rate_rejected atoi prog a euid envs cycles fs hbad]
        intro _
        refine ⟨rfl, ?_⟩
        intro e he
        rcases List.mem_append.1 he with h | h
        · simp only [List.mem_cons, List.mem_singleton, List.not_mem_nil, or_false] at h
          rcases h with h | h <;> exact ⟨_, h⟩
        · exact help_stderr prog e h
      · rw [main_rate_accepted atoi prog a euid envs cycles fs (by omega) (by omega)]
        intro h
        exact absurd h (by simp)
    | a :: b :: rest =>
      rw [main_too_many]
      intro _
      exact ⟨rfl, help_stderr prog⟩
  · intro h
    subst h
    exact ⟨by decide, main_no_argument atoi prog euid envs cycles fs⟩
  · intro a h hlo hhi
    subst h
    exact ⟨HZ_TO_NSEC_of_range hlo, main_rate_accepted atoi prog a euid envs cycles fs hlo hhi⟩
  · match args with
    | [] => rw [main_no_argument]; simp
    | [a] =>
      by_cases hbad : atoi a < 1 ∨ atoi a > 1000
      · rw [main_rate_rejected atoi prog a euid envs cycles fs hbad]; simp
      · rw [main_rate_accepted atoi prog a euid envs cycles fs (by omega) (by omega)]; simp
    | a :: b :: rest => rw [main_too_many]; simp

/-- Witness of C1, with the `atoi` of the GNU C library and the scenario of three
remotes: the rates 0, 1001 and `abc`, and two arguments, end with status 1; the rates
1 and 1000 and no argument enter the loop, as root or not. -/
theorem main_startup_witness :
    (main glibc_atoi ["ekr_fixperm", "0"] 0 (fun _ => env3) 2 fs3).status = Status.exited 1
    ∧ (main glibc_atoi ["ekr_fixperm", "1001"] 0 (fun _ => env3) 2 fs3).status = Status.exited 1
    ∧ (main glibc_atoi ["ekr_fixperm", "abc"] 0 (fun _ => env3) 2 fs3).status = Status.exited 1
    ∧ (main glibc_atoi ["ekr_fixperm", "5", "6"] 0 (fun _ => env3) 2 fs3).status
        = Status.exited 1
    ∧ (main glibc_atoi ["ekr_fixperm", "1"] 0 (fun _ => env3) 2 fs3).status
        = Status.in_mainloop 1000000000
    ∧ (main glibc_atoi ["ekr_fixperm", "1000"] 1000 (fun _ => env3) 2 fs3).status
        = Status.in_mainloop 1000000
    ∧ (main glibc_atoi ["ekr_fixperm"] 1000 (fun _ => env3) 2 fs3).status
        = Status.in_mainloop 200000000 :=
  ⟨(main_startup glibc_atoi "ekr_fixperm" ["0"] 0 (fun _ => env3) 2 fs3).1.2
      (Or.inr ⟨"0", rfl, Or.inl (by decide)⟩),
    (main_startup glibc_atoi "ekr_fixperm" ["1001"] 0 (fun _ => env3) 2 fs3).1.2
      (Or.inr ⟨"1001", rfl, Or.inr (by decide)⟩),
    (main_startup glibc_atoi "ekr_fixperm" ["abc"] 0 (fun _ => env3) 2 fs3).1.2
      (Or.inr ⟨"abc", rfl, Or.inl (by decide)⟩),
    (main_startup glibc_atoi "ekr_fixperm" ["5", "6"] 0 (fun _ => env3) 2 fs3).1.2
      (Or.inl (by decide)),
    (congrArg Run.status ((main_startup glibc_atoi "ekr_fixperm" ["1"] 0 (fun _ => env3) 2
      fs3).2.2.2.1 "1" rfl (by decide) (by decide)).2).trans (by decide),
    (congrArg Run.status ((main_startup glibc_atoi "ekr_fixperm" ["1000"] 1000
      (fun _ => env3) 2 fs3).2.2.2.1 "1000" rfl (by decide) (by decide)).2).trans (by decide),
    congrArg Run.status ((main_startup glibc_atoi "ekr_fixperm" [] 1000 (fun _ => env3) 2
      fs3).2.2.1 rfl).2⟩

end EkrFixperm
